import Mathlib

/-!
Shallow embedding of the coretilla backend core: the balance ledger
(BalanceService.addBalance, BalanceService.subtractBalance), the swap
workflow (FinanceService.swap), the deposit workflow
(PaymentsService.confirmDeposit, handlePaymentSucceeded,
handlePaymentFailed), and the wallet authentication protocol
(AuthService.signIn, AuthService.generateNonce, CacheService).

Monetary amounts (Prisma Decimal columns) are modelled as rationals.
Database rows are lists of records; Prisma findUnique is List.find?,
updates are List.map replacing the matching row.  A Prisma
interactive transaction that throws is an Except.error that leaves
the database unchanged.  External collaborators (Stripe, the price
feed, the blockchain client, the signature verifier, the JWT signer)
enter as explicit parameters carrying their outcome.
-/

namespace Coretilla

/-- Transaction.type enum from the Prisma schema. -/
inductive TransactionType
  | DEPOSIT
  | WITHDRAWAL
  | SWAP
  | TRANSFER_IN
  | TRANSFER_OUT
  deriving DecidableEq, Repr

/-- Deposit.status enum from the Prisma schema. -/
inductive DepositStatus
  | PENDING
  | PROCESSING
  | COMPLETED
  | FAILED
  | CANCELLED
  deriving DecidableEq, Repr

/-- User row: id, unique wallet address, decimal balance. -/
structure User where
  id : Nat
  wallet_address : String
  balance : ℚ
  deriving DecidableEq, Repr

/-- Transaction row (append-only ledger entry).  Its id is its index in
the global transaction list, modelling the autoincrement primary key. -/
structure Txn where
  user_id : Nat
  ttype : TransactionType
  amount : ℚ
  description : String
  balance_after : ℚ
  btc_amount : Option ℚ
  btc_price : Option ℚ
  transaction_hash : Option String
  deriving DecidableEq, Repr

/-- Deposit row: funding intent keyed by the unique Stripe payment-intent id. -/
structure Deposit where
  id : Nat
  user_id : Nat
  stripe_payment_intent_id : String
  amount : ℚ
  currency : String
  status : DepositStatus
  deriving DecidableEq, Repr

/-- The relational store: users, deposits and the append-only
transaction list. -/
structure DB where
  users : List User
  deposits : List Deposit
  transactions : List Txn
  deriving DecidableEq, Repr

/-- Error classes thrown by the services: NestJS HTTP exceptions are
distinguished by kind, a plain JS Error has kind ErrKind.plain. -/
inductive ErrKind
  | notFound
  | badRequest
  | unauthorizedK
  | internal
  | plain
  deriving DecidableEq, Repr

/-- A thrown error: its exception class and its message. -/
structure Err where
  kind : ErrKind
  msg : String
  deriving DecidableEq, Repr

/-- Result of BalanceService.addBalance and subtractBalance. -/
structure BalanceResult where
  balance : ℚ
  transactionId : Nat
  deriving DecidableEq, Repr

/-- BalanceService.addBalance: inside one Prisma transaction, read the
user row (plain Error if absent), increment the balance, insert a
DEPOSIT transaction whose balance_after is the post-increment balance,
and return the new balance with the new transaction id. -/
def addBalance (db : DB) (userId : Nat) (amount : ℚ) (description : Option String) :
    Except Err (BalanceResult × DB) :=
  match db.users.find? (fun u => u.id == userId) with
  | none => .error ⟨.plain, "User not found"⟩
  | some user =>
      let updatedUser : User := { user with balance := user.balance + amount }
      let txn : Txn :=
        { user_id := userId
          ttype := .DEPOSIT
          amount := amount
          description := description.getD "Balance deposit"
          balance_after := updatedUser.balance
          btc_amount := none
          btc_price := none
          transaction_hash := none }
      .ok (⟨updatedUser.balance, db.transactions.length⟩,
        { db with
            users := db.users.map (fun u => if u.id == userId then updatedUser else u)
            transactions := db.transactions ++ [txn] })

/-- BalanceService.subtractBalance: same shape as addBalance but checks
current balance against the amount first (plain Error on insufficiency)
and records a WITHDRAWAL transaction. -/
def subtractBalance (db : DB) (userId : Nat) (amount : ℚ) (description : Option String) :
    Except Err (BalanceResult × DB) :=
  match db.users.find? (fun u => u.id == userId) with
  | none => .error ⟨.plain, "User not found"⟩
  | some user =>
      if user.balance < amount then
        .error ⟨.plain, "Insufficient balance"⟩
      else
        let updatedUser : User := { user with balance := user.balance - amount }
        let txn : Txn :=
          { user_id := userId
            ttype := .WITHDRAWAL
            amount := amount
            description := description.getD "Balance withdrawal"
            balance_after := updatedUser.balance
            btc_amount := none
            btc_price := none
            transaction_hash := none }
        .ok (⟨updatedUser.balance, db.transactions.length⟩,
          { db with
              users := db.users.map (fun u => if u.id == userId then updatedUser else u)
              transactions := db.transactions ++ [txn] })

/-- Result of FinanceService.swap. -/
structure SwapResult where
  transactionHash : String
  btcAmount : ℚ
  btcPrice : ℚ
  usdAmount : ℚ
  remainingBalance : ℚ
  deriving DecidableEq, Repr

/-- FinanceService.swap: validate input, load the user by wallet address,
check the balance, compute the settlement quantity from the fetched
price, perform the external transfer, then inside one Prisma transaction
decrement the balance and append a SWAP transaction whose balance_after
is the pre-read balance minus the amount.  The fetched price and the
external transfer outcome are parameters; their failures are wrapped by
the catch block into the internal swap failure. -/
def swap (db : DB) (walletAddress : String) (amount : ℚ)
    (priceResult : Except Err ℚ) (transferResult : Except Err String) :
    Except Err (SwapResult × DB) :=
  if walletAddress = "" ∨ amount ≤ 0 then
    .error ⟨.badRequest, "Invalid wallet address or amount"⟩
  else
    match db.users.find? (fun u => u.wallet_address == walletAddress) with
    | none => .error ⟨.notFound, "User not found"⟩
    | some user =>
        if user.balance < amount then
          .error ⟨.badRequest, "Insufficient balance"⟩
        else
          match priceResult with
          | .error _ => .error ⟨.internal, "Swap transaction failed"⟩
          | .ok btcPriceUSD =>
              let btcAmount := amount / btcPriceUSD
              match transferResult with
              | .error _ => .error ⟨.internal, "Swap transaction failed"⟩
              | .ok transactionHash =>
                  let txn : Txn :=
                    { user_id := user.id
                      ttype := .SWAP
                      amount := amount
                      description := "Swap USD to BTC"
                      balance_after := user.balance - amount
                      btc_amount := some btcAmount
                      btc_price := some btcPriceUSD
                      transaction_hash := some transactionHash }
                  .ok (⟨transactionHash, btcAmount, btcPriceUSD, amount, user.balance - amount⟩,
                    { db with
                        users := db.users.map (fun u =>
                          if u.wallet_address == walletAddress then
                            { u with balance := u.balance - amount }
                          else u)
                        transactions := db.transactions ++ [txn] })

/-- Result of PaymentsService.confirmDeposit. -/
structure ConfirmResult where
  success : Bool
  deposit_id : Nat
  new_balance : ℚ
  transaction_id : Nat
  deriving DecidableEq, Repr

/-- The catch block of confirmDeposit and createDeposit: NotFound and
BadRequest exceptions rethrow unchanged, anything else is replaced by a
BadRequest with the fallback message. -/
def rethrowOrWrap (e : Err) (fallbackMsg : String) : Err :=
  if e.kind = .notFound ∨ e.kind = .badRequest then e else ⟨.badRequest, fallbackMsg⟩

/-- PaymentsService.confirmDeposit: load the Deposit by payment-intent id
(with its owning user), check ownership and the COMPLETED idempotency
guard, confirm the intent with Stripe (outcome passed as a parameter),
write the new deposit status, and on success credit the owner through
BalanceService.addBalance.  The calls are not wrapped in one Prisma
transaction, so effects performed before a failure persist; the pair
returned carries the database as left by the call. -/
def confirmDeposit (db : DB) (walletAddress : String) (paymentIntentId : String)
    (stripeResult : Except Err String) : Except Err ConfirmResult × DB :=
  match db.deposits.find? (fun d => d.stripe_payment_intent_id == paymentIntentId) with
  | none => (.error ⟨.notFound, "Deposit not found"⟩, db)
  | some deposit =>
      match db.users.find? (fun u => u.id == deposit.user_id) with
      | none => (.error ⟨.badRequest, "Failed to confirm deposit"⟩, db)
      | some owner =>
          if owner.wallet_address ≠ walletAddress then
            (.error ⟨.badRequest, "Unauthorized access to deposit"⟩, db)
          else if deposit.status = .COMPLETED then
            (.error ⟨.badRequest, "Deposit already processed"⟩, db)
          else
            match stripeResult with
            | .error e => (.error (rethrowOrWrap e "Failed to confirm deposit"), db)
            | .ok paymentIntentStatus =>
                let newStatus :=
                  if paymentIntentStatus = "succeeded" then DepositStatus.COMPLETED
                  else DepositStatus.PROCESSING
                let db1 : DB :=
                  { db with deposits := db.deposits.map (fun d =>
                      if d.id == deposit.id then { d with status := newStatus } else d) }
                if paymentIntentStatus = "succeeded" then
                  match db1.users.find? (fun u => u.wallet_address == walletAddress) with
                  | none => (.error ⟨.notFound, "User not found"⟩, db1)
                  | some user =>
                      match addBalance db1 user.id deposit.amount
                          (some ("Deposit via Stripe - " ++ deposit.stripe_payment_intent_id)) with
                      | .error e => (.error (rethrowOrWrap e "Failed to confirm deposit"), db1)
                      | .ok (res, db2) =>
                          (.ok ⟨true, deposit.id, res.balance, res.transactionId⟩, db2)
                else
                  (.error ⟨.badRequest, "Payment confirmation failed"⟩, db1)

/-- PaymentsService.handlePaymentSucceeded: look up the Deposit for the
succeeded payment intent; if absent, log and return; if already
COMPLETED, return; otherwise write COMPLETED and credit the owner via
BalanceService.addBalance. -/
def handlePaymentSucceeded (db : DB) (paymentIntentId : String) : Except Err Unit × DB :=
  match db.deposits.find? (fun d => d.stripe_payment_intent_id == paymentIntentId) with
  | none => (.ok (), db)
  | some deposit =>
      if deposit.status = .COMPLETED then (.ok (), db)
      else
        let db1 : DB :=
          { db with deposits := db.deposits.map (fun d =>
              if d.id == deposit.id then { d with status := .COMPLETED } else d) }
        match addBalance db1 deposit.user_id deposit.amount
            (some ("Deposit via Stripe Webhook - " ++ deposit.stripe_payment_intent_id)) with
        | .error e => (.error e, db1)
        | .ok (_, db2) => (.ok (), db2)

/-- PaymentsService.handlePaymentFailed: look up the Deposit for the
failed payment intent; if absent, log and return; otherwise write FAILED.
No balance or transaction change. -/
def handlePaymentFailed (db : DB) (paymentIntentId : String) : Except Err Unit × DB :=
  match db.deposits.find? (fun d => d.stripe_payment_intent_id == paymentIntentId) with
  | none => (.ok (), db)
  | some deposit =>
      (.ok (), { db with deposits := db.deposits.map (fun d =>
          if d.id == deposit.id then { d with status := .FAILED } else d) })

/-! ## Ledger operation sequences (claim C1)

A ledger operation is one call to addBalance, subtractBalance or swap.
A call that throws leaves the database unchanged (the Prisma transaction
rolls back and swap performs its database writes only inside that
transaction). -/

/-- One ledger operation with its inputs; for swap also the outcomes of
the price fetch and the external transfer. -/
inductive Op
  | add (userId : Nat) (amount : ℚ) (description : Option String)
  | sub (userId : Nat) (amount : ℚ) (description : Option String)
  | swp (walletAddress : String) (amount : ℚ)
      (priceResult : Except Err ℚ) (transferResult : Except Err String)

/-- Apply one ledger operation; a thrown error leaves the database as it
was. -/
def applyOp (db : DB) : Op → DB
  | .add userId amount d =>
      match addBalance db userId amount d with
      | .ok (_, db') => db'
      | .error _ => db
  | .sub userId amount d =>
      match subtractBalance db userId amount d with
      | .ok (_, db') => db'
      | .error _ => db
  | .swp w amount pr tr =>
      match swap db w amount pr tr with
      | .ok (_, db') => db'
      | .error _ => db

/-- Run a sequence of ledger operations left to right. -/
def runOps (db : DB) : List Op → DB
  | [] => db
  | op :: rest => runOps (applyOp db op) rest

/-- The transactions of one user, in creation order. -/
def userTxns (db : DB) (uid : Nat) : List Txn :=
  db.transactions.filter (fun t => t.user_id == uid)

/-- The signed amount of a ledger entry: credits positive, debits and
swaps negative. -/
def signedAmount (t : Txn) : ℚ :=
  match t.ttype with
  | .DEPOSIT => t.amount
  | .TRANSFER_IN => t.amount
  | _ => -t.amount

/-- Sum of the signed amounts of a transaction list. -/
def signedSum (l : List Txn) : ℚ := (l.map signedAmount).sum

/-- Checks that every entry of the list carries balance_after equal to
the running sum of signed amounts starting from acc. -/
def historyOkB : List Txn → ℚ → Bool
  | [], _ => true
  | t :: rest, acc =>
      (t.balance_after == acc + signedAmount t) && historyOkB rest (acc + signedAmount t)

/-- Row uniqueness the database guarantees: primary key on User.id and
the unique constraint on User.wallet_address. -/
def UsersWf (db : DB) : Prop :=
  (db.users.map User.id).Nodup ∧ (db.users.map User.wallet_address).Nodup

/-- The ledger consistency invariant: every user balance equals the
signed sum of that user transaction history, and every entry carries the
running balance snapshot. -/
def LedgerInv (db : DB) : Prop :=
  ∀ u ∈ db.users, historyOkB (userTxns db u.id) 0 = true ∧
    u.balance = signedSum (userTxns db u.id)

/-! ## Nonce store and authentication protocol

The cache backend is a key-value store whose primitive operations may
fail; the failure pattern is part of the backend description so that the
CacheService catch blocks can be stated.  CacheService wraps every
backend operation in try/catch and never lets a backend failure escape:
get returns null, set and del return normally. -/

/-- The underlying cache backend: its store and, per key, whether the
primitive get/set/del operation throws. -/
structure CacheBackend where
  store : List (String × String)
  getFails : String → Bool
  setFails : String → Bool
  delFails : String → Bool

/-- Primitive backend get: throws per getFails, else the stored value. -/
def rawCacheGet (b : CacheBackend) (key : String) : Except String (Option String) :=
  if b.getFails key then .error "cache backend failure"
  else .ok ((b.store.find? (fun kv => kv.1 == key)).map Prod.snd)

/-- Primitive backend set: throws per setFails, else overwrites the key. -/
def rawCacheSet (b : CacheBackend) (key value : String) : Except String CacheBackend :=
  if b.setFails key then .error "cache backend failure"
  else .ok { b with store := (key, value) :: b.store.filter (fun kv => kv.1 != key) }

/-- Primitive backend del: throws per delFails, else removes the key. -/
def rawCacheDel (b : CacheBackend) (key : String) : Except String CacheBackend :=
  if b.delFails key then .error "cache backend failure"
  else .ok { b with store := b.store.filter (fun kv => kv.1 != key) }

/-- CacheService.get: catches any backend error and returns null. -/
def cacheServiceGet (b : CacheBackend) (key : String) : Except String (Option String) :=
  match rawCacheGet b key with
  | .error _ => .ok none
  | .ok v => .ok v

/-- CacheService.set: catches any backend error; the key is then simply
not written. -/
def cacheServiceSet (b : CacheBackend) (key value : String) : Except String CacheBackend :=
  match rawCacheSet b key value with
  | .error _ => .ok b
  | .ok b' => .ok b'

/-- CacheService.del: catches any backend error; the key is then simply
not removed. -/
def cacheServiceDel (b : CacheBackend) (key : String) : Except String CacheBackend :=
  match rawCacheDel b key with
  | .error _ => .ok b
  | .ok b' => .ok b'

/-- Errors signIn can throw: BadRequestException,
UnauthorizedException, InternalServerErrorException. -/
inductive AuthError
  | badRequest (msg : String)
  | unauthorizedE (msg : String)
  | internalServer (msg : String)
  deriving DecidableEq, Repr

/-- One access to the nonce store, for stating that a code path touches
the store or not. -/
inductive CacheAccess
  | getA (key : String)
  | setA (key : String)
  | delA (key : String)
  deriving DecidableEq, Repr

/-- Successful signIn payload. -/
structure SignInOk where
  wallet_address : String
  access_token : String
  deriving DecidableEq, Repr

/-- One character of the fixed hex alphabet of the address and signature
patterns. -/
def isHexDigitChar (c : Char) : Bool :=
  (('a' ≤ c) && (c ≤ 'f')) || (('A' ≤ c) && (c ≤ 'F')) || (('0' ≤ c) && (c ≤ '9'))

/-- The regex 0x followed by exactly n hex digits, anchored at both ends. -/
def matchesHexOfLength (s : String) (n : Nat) : Bool :=
  match s.toList with
  | '0' :: 'x' :: rest => rest.length == n && rest.all isHexDigitChar
  | _ => false

/-- The wallet address pattern of signIn: 0x plus 40 hex digits. -/
def isWalletAddressFormat (s : String) : Bool := matchesHexOfLength s 40

/-- The signature pattern of signIn: 0x plus 130 hex digits. -/
def isSignatureFormat (s : String) : Bool := matchesHexOfLength s 130

/-- AuthService.generateNonce: store the fresh token under the wallet
address key with a 120 second TTL and return it.  The token (uuid) is a
parameter. -/
def generateNonce (b : CacheBackend) (walletAddress nonce : String) :
    String × CacheBackend × List CacheAccess :=
  let cacheKey := "nonce:" ++ walletAddress
  match cacheServiceSet b cacheKey nonce with
  | .error _ => (nonce, b, [.setA cacheKey])
  | .ok b' => (nonce, b', [.setA cacheKey])

/-- AuthService.signIn: required-field and format validation, nonce
lookup (the catch around the nonce read maps a thrown cache error to the
service-unavailable InternalServerErrorException), signature
verification by the external verifier, best-effort nonce deletion, and
token issuance by the external JWT signer.  Returns the outcome, the
cache backend as left by the call, and the list of nonce-store accesses
the call performed. -/
def signIn (b : CacheBackend) (wallet_address signature : String)
    (verify : String → String → String → Except String Bool)
    (jwtSign : String → Except String String) :
    Except AuthError SignInOk × CacheBackend × List CacheAccess :=
  if wallet_address = "" ∨ signature = "" then
    (.error (.badRequest "Wallet address and signature are required"), b, [])
  else if !(isWalletAddressFormat wallet_address) then
    (.error (.badRequest "Invalid wallet address format"), b, [])
  else if !(isSignatureFormat signature) then
    (.error (.badRequest "Invalid signature format"), b, [])
  else
    let cacheKey := "nonce:" ++ wallet_address
    match cacheServiceGet b cacheKey with
    | .error _ =>
        (.error (.internalServer "Authentication service temporarily unavailable"),
          b, [.getA cacheKey])
    | .ok none =>
        (.error (.unauthorizedE "Nonce not found or expired. Please request a new nonce"),
          b, [.getA cacheKey])
    | .ok (some nonce) =>
        match verify wallet_address nonce signature with
        | .error _ =>
            (.error (.unauthorizedE "Invalid signature format or verification failed"),
              b, [.getA cacheKey])
        | .ok false =>
            (.error (.unauthorizedE "Invalid signature"), b, [.getA cacheKey])
        | .ok true =>
            let b1 := match cacheServiceDel b cacheKey with
              | .error _ => b
              | .ok b' => b'
            match jwtSign wallet_address with
            | .error _ =>
                (.error (.internalServer "Failed to generate access token"),
                  b1, [.getA cacheKey, .delA cacheKey])
            | .ok access_token =>
                (.ok ⟨wallet_address, access_token⟩, b1, [.getA cacheKey, .delA cacheKey])

/-! ## Interleaved execution of confirmDeposit and handlePaymentSucceeded
(claim C2)

Both calls are sequences of individually-atomic awaited database
operations with no enclosing Prisma transaction around the status check,
the status write and the credit.  Each call is modelled as a small-step
process whose steps are its awaited operations, and a scheduler
interleaves the two processes over a shared database.  The Stripe
confirmation is taken to report succeeded, as in the claim. -/

/-- Program counter of a confirmDeposit call in flight.  The local
deposit row read at the start is carried along, exactly as the JS local
variable is. -/
inductive ConfirmPhase
  | start
  | readDone (deposit : Deposit)
  | stripeDone (deposit : Deposit)
  | statusWritten (deposit : Deposit)
  | finished (result : Except Err Unit)
  deriving Repr

/-- One awaited step of confirmDeposit (with a succeeded Stripe
confirmation): read the deposit with its checks, call Stripe, write the
COMPLETED status, then credit through addBalance. -/
def confirmStep (walletAddress paymentIntentId : String) :
    ConfirmPhase → DB → ConfirmPhase × DB
  | .start, db =>
      (match db.deposits.find? (fun d => d.stripe_payment_intent_id == paymentIntentId) with
       | none => (.finished (.error ⟨.notFound, "Deposit not found"⟩), db)
       | some deposit =>
           match db.users.find? (fun u => u.id == deposit.user_id) with
           | none => (.finished (.error ⟨.badRequest, "Failed to confirm deposit"⟩), db)
           | some owner =>
               if owner.wallet_address ≠ walletAddress then
                 (.finished (.error ⟨.badRequest, "Unauthorized access to deposit"⟩), db)
               else if deposit.status = .COMPLETED then
                 (.finished (.error ⟨.badRequest, "Deposit already processed"⟩), db)
               else
                 (.readDone deposit, db))
  | .readDone deposit, db => (.stripeDone deposit, db)
  | .stripeDone deposit, db =>
      (.statusWritten deposit,
        { db with deposits := db.deposits.map (fun d =>
            if d.id == deposit.id then { d with status := .COMPLETED } else d) })
  | .statusWritten deposit, db =>
      (match db.users.find? (fun u => u.wallet_address == walletAddress) with
       | none => (.finished (.error ⟨.notFound, "User not found"⟩), db)
       | some user =>
           match addBalance db user.id deposit.amount
               (some ("Deposit via Stripe - " ++ deposit.stripe_payment_intent_id)) with
           | .error e => (.finished (.error (rethrowOrWrap e "Failed to confirm deposit")), db)
           | .ok (_, db2) => (.finished (.ok ()), db2))
  | .finished r, db => (.finished r, db)

/-- Program counter of a handlePaymentSucceeded call in flight. -/
inductive WebhookPhase
  | start
  | readDone (deposit : Deposit)
  | statusWritten (deposit : Deposit)
  | finished (result : Except Err Unit)
  deriving Repr

/-- One awaited step of handlePaymentSucceeded: read the deposit with
its idempotency check, write the COMPLETED status, then credit through
addBalance. -/
def webhookStep (paymentIntentId : String) : WebhookPhase → DB → WebhookPhase × DB
  | .start, db =>
      (match db.deposits.find? (fun d => d.stripe_payment_intent_id == paymentIntentId) with
       | none => (.finished (.ok ()), db)
       | some deposit =>
           if deposit.status = .COMPLETED then (.finished (.ok ()), db)
           else (.readDone deposit, db))
  | .readDone deposit, db =>
      (.statusWritten deposit,
        { db with deposits := db.deposits.map (fun d =>
            if d.id == deposit.id then { d with status := .COMPLETED } else d) })
  | .statusWritten deposit, db =>
      (match addBalance db deposit.user_id deposit.amount
           (some ("Deposit via Stripe Webhook - " ++ deposit.stripe_payment_intent_id)) with
       | .error e => (.finished (.error e), db)
       | .ok (_, db2) => (.finished (.ok ()), db2))
  | .finished r, db => (.finished r, db)

/-- Joint state of the two racing calls and the shared database. -/
structure RaceState where
  confirm : ConfirmPhase
  webhook : WebhookPhase
  db : DB

/-- Scheduler: true runs one confirmDeposit step, false runs one
handlePaymentSucceeded step. -/
def raceStep (walletAddress paymentIntentId : String) (s : RaceState) (choice : Bool) :
    RaceState :=
  if choice then
    let (c', db') := confirmStep walletAddress paymentIntentId s.confirm s.db
    { s with confirm := c', db := db' }
  else
    let (w', db') := webhookStep paymentIntentId s.webhook s.db
    { s with webhook := w', db := db' }

/-- Run both calls under the given interleaving schedule. -/
def runRace (walletAddress paymentIntentId : String) (s : RaceState) :
    List Bool → RaceState
  | [] => s
  | c :: rest => runRace walletAddress paymentIntentId
      (raceStep walletAddress paymentIntentId s c) rest

/-! ## Shared lemmas about row lookup and the ledger lists -/

/-- Looking a row up after an update that does not move the looked-up
key: find? commutes with a map whose function preserves the predicate. -/
theorem find?_map_pres {α : Type} (g : α → α) (p : α → Bool) (l : List α)
    (h : ∀ x, p (g x) = p x) :
    (l.map g).find? p = (l.find? p).map g := by
  rw [List.find?_map]
  have hpg : p ∘ g = p := funext h
  rw [hpg]

/-- Appending a ledger entry extends the signed sum by its signed
amount. -/
theorem signedSum_append (l : List Txn) (t : Txn) :
    signedSum (l ++ [t]) = signedSum l + signedAmount t := by
  simp [signedSum]

/-- The signed sum of a cons. -/
theorem signedSum_cons (t : Txn) (l : List Txn) :
    signedSum (t :: l) = signedAmount t + signedSum l := by
  simp [signedSum]

/-- Appending one entry to a consistent history stays consistent exactly
when the new entry carries the running sum so far plus its own signed
amount. -/
theorem historyOkB_append (l : List Txn) (t : Txn) (acc : ℚ) :
    historyOkB (l ++ [t]) acc =
      (historyOkB l acc && (t.balance_after == acc + signedSum l + signedAmount t)) := by
  induction l generalizing acc with
  | nil => simp [historyOkB, signedSum]
  | cons x xs ih =>
      rw [List.cons_append, historyOkB, historyOkB, ih, signedSum_cons, Bool.and_assoc]
      ring_nf

/-! ## Claim theorems for the balance ledger -/

/-- C4: addBalance is one atomic unit.  If no user with the id exists it
fails with the not-found error and the database is unchanged; otherwise
it increments the balance by the amount, appends exactly one DEPOSIT
transaction whose balance_after is the post-increment balance, and
returns the new balance together with the id (index) of that
transaction. -/
theorem addBalance_atomic_credit (db : DB) (userId : Nat) (amount : ℚ) (d : Option String)
    (hpos : 0 < amount) :
    (db.users.find? (fun u => u.id == userId) = none →
      addBalance db userId amount d = .error ⟨.plain, "User not found"⟩ ∧
      applyOp db (.add userId amount d) = db) ∧
    (∀ user, db.users.find? (fun u => u.id == userId) = some user →
      ∃ db',
        addBalance db userId amount d =
          .ok (⟨user.balance + amount, db.transactions.length⟩, db') ∧
        db'.transactions = db.transactions ++
          [{ user_id := userId
             ttype := .DEPOSIT
             amount := amount
             description := d.getD "Balance deposit"
             balance_after := user.balance + amount
             btc_amount := none
             btc_price := none
             transaction_hash := none }] ∧
        db'.users.find? (fun u => u.id == userId) =
          some { user with balance := user.balance + amount } ∧
        db'.deposits = db.deposits) := by
  constructor
  · intro hnone
    constructor
    · simp [addBalance, hnone]
    · simp [applyOp, addBalance, hnone]
  · intro user hfind
    have hid : (user.id == userId) = true := by simpa using List.find?_some hfind
    have hpred : ∀ x : User,
        ((fun u : User => u.id == userId)
          (if x.id == userId then { user with balance := user.balance + amount } else x)) =
        (x.id == userId) := by
      intro x
      by_cases hx : (x.id == userId) = true
      · simp [hx, hid]
      · simp [hx] at hx ⊢
    refine ⟨{ db with
        users := db.users.map (fun u =>
          if u.id == userId then { user with balance := user.balance + amount } else u)
        transactions := db.transactions ++
          [{ user_id := userId
             ttype := .DEPOSIT
             amount := amount
             description := d.getD "Balance deposit"
             balance_after := user.balance + amount
             btc_amount := none
             btc_price := none
             transaction_hash := none }] }, ?_, ?_, ?_, ?_⟩
    · simp only [addBalance, hfind]
    · rfl
    · show (db.users.map _).find? _ = _
      rw [find?_map_pres _ _ _ hpred, hfind]
      have hid' : user.id = userId := by simpa using hid
      simp [hid']
    · rfl

/-- C3: for an existing user and a positive amount exceeding the current
balance, subtractBalance fails with the insufficient-funds error and the
database (balance and transaction history) is unchanged. -/
theorem subtractBalance_insufficient (db : DB) (userId : Nat) (amount : ℚ)
    (d : Option String) (user : User)
    (hfind : db.users.find? (fun u => u.id == userId) = some user)
    (hpos : 0 < amount) (hlt : user.balance < amount) :
    subtractBalance db userId amount d = .error ⟨.plain, "Insufficient balance"⟩ ∧
    applyOp db (.sub userId amount d) = db := by
  constructor
  · simp [subtractBalance, hfind, hlt]
  · simp [applyOp, subtractBalance, hfind, hlt]

/-- A one-user database used to instantiate the ledger theorems. -/
def dbW : DB := ⟨[⟨1, "0xabc", 100⟩], [], []⟩

/-- Witness: addBalance_atomic_credit applied to a concrete database
with one user of balance 100 and a credit of 5. -/
theorem addBalance_atomic_credit_witness :
    ∃ db',
      addBalance dbW 1 5 none = .ok (⟨105, 0⟩, db') ∧
      db'.users.find? (fun u => u.id == 1) = some ⟨1, "0xabc", 105⟩ := by
  obtain ⟨db', h1, h2, h3, h4⟩ :=
    (addBalance_atomic_credit dbW 1 5 none (by norm_num)).2 ⟨1, "0xabc", 100⟩ (by decide)
  norm_num [dbW] at h1 h3
  exact ⟨db', h1, h3⟩

/-- Witness: subtractBalance_insufficient applied to a concrete database
with balance 100 and a debit of 200. -/
theorem subtractBalance_insufficient_witness :
    subtractBalance dbW 1 200 none = .error ⟨.plain, "Insufficient balance"⟩ ∧
    applyOp dbW (.sub 1 200 none) = dbW :=
  subtractBalance_insufficient dbW 1 200 none ⟨1, "0xabc", 100⟩ (by decide)
    (by norm_num) (by norm_num)

/-- C9: with balance 100.00, a swap of 40.00 at a fetched price of 50000
per unit and a successful external transfer succeeds, returns settlement
quantity 0.0008, price 50000, original amount 40 and resulting balance
60.00, and appends exactly one SWAP transaction with balance_after
60.00. -/
theorem swap_scenario_100_40_50000 :
    swap (⟨[⟨1, "0xabc", 100⟩], [], []⟩ : DB) "0xabc" 40 (.ok 50000) (.ok "0xhash") =
      .ok (⟨"0xhash", 0.0008, 50000, 40, 60⟩,
        ⟨[⟨1, "0xabc", 60⟩], [],
          [⟨1, .SWAP, 40, "Swap USD to BTC", 60, some 0.0008, some 50000, some "0xhash"⟩]⟩) := by
  norm_num [swap]
  intro h
  exact absurd h (by decide)

/-! ## Claim theorems for the deposit workflow -/

/-- Unfolding of a successful addBalance call: the updated user row, the
appended DEPOSIT entry and the returned balance and transaction id. -/
theorem addBalance_ok (db : DB) (userId : Nat) (amount : ℚ) (d : Option String) (user : User)
    (hfind : db.users.find? (fun u => u.id == userId) = some user) :
    addBalance db userId amount d =
      .ok (⟨user.balance + amount, db.transactions.length⟩,
        { db with
            users := db.users.map (fun u =>
              if u.id == userId then { user with balance := user.balance + amount } else u)
            transactions := db.transactions ++
              [⟨userId, .DEPOSIT, amount, d.getD "Balance deposit",
                user.balance + amount, none, none, none⟩] }) := by
  simp only [addBalance, hfind]

/-- Looking up a user by id after replacing that user row by one with
the same id finds the replacement. -/
theorem users_find?_after_update (l : List User) (userId : Nat) (user newUser : User)
    (hfind : l.find? (fun u => u.id == userId) = some user)
    (hidNew : newUser.id = user.id) :
    (l.map (fun u => if u.id == userId then newUser else u)).find?
        (fun u => u.id == userId) = some newUser := by
  have hid' : user.id = userId := by simpa using List.find?_some hfind
  have hpred : ∀ x : User,
      ((fun u : User => u.id == userId) (if x.id == userId then newUser else x)) =
      (x.id == userId) := by
    intro x
    by_cases hx : (x.id == userId) = true
    · simp [hx, hidNew, hid']
    · simp [hx]
  rw [find?_map_pres _ _ _ hpred, hfind]
  simp [hid']

/-- Looking up a deposit by payment-intent id after a status write on
that deposit row finds the row with the new status. -/
theorem deposits_find?_after_status_update (l : List Deposit) (pid : String) (dep : Deposit)
    (st : DepositStatus)
    (hfind : l.find? (fun d => d.stripe_payment_intent_id == pid) = some dep) :
    (l.map (fun d => if d.id == dep.id then { d with status := st } else d)).find?
        (fun d => d.stripe_payment_intent_id == pid) = some { dep with status := st } := by
  have hpred : ∀ x : Deposit,
      ((fun d : Deposit => d.stripe_payment_intent_id == pid)
        (if x.id == dep.id then { x with status := st } else x)) =
      (x.stripe_payment_intent_id == pid) := by
    intro x
    by_cases hx : (x.id == dep.id) = true <;> simp [hx]
  rw [find?_map_pres _ _ _ hpred, hfind]
  simp

/-- C5: the three guard failures of confirmDeposit.  A missing Deposit
fails not-found; a Deposit owned by a different wallet fails with the
unauthorized-access error; an already COMPLETED Deposit fails with the
already-processed error.  In each case the database is returned
unchanged: no status write and no credit. -/
theorem confirmDeposit_guard_failures (db : DB) (walletAddress paymentIntentId : String)
    (stripeResult : Except Err String) :
    (db.deposits.find? (fun d => d.stripe_payment_intent_id == paymentIntentId) = none →
      confirmDeposit db walletAddress paymentIntentId stripeResult =
        (.error ⟨.notFound, "Deposit not found"⟩, db)) ∧
    (∀ deposit owner,
      db.deposits.find? (fun d => d.stripe_payment_intent_id == paymentIntentId) =
        some deposit →
      db.users.find? (fun u => u.id == deposit.user_id) = some owner →
      owner.wallet_address ≠ walletAddress →
      confirmDeposit db walletAddress paymentIntentId stripeResult =
        (.error ⟨.badRequest, "Unauthorized access to deposit"⟩, db)) ∧
    (∀ deposit owner,
      db.deposits.find? (fun d => d.stripe_payment_intent_id == paymentIntentId) =
        some deposit →
      db.users.find? (fun u => u.id == deposit.user_id) = some owner →
      owner.wallet_address = walletAddress →
      deposit.status = .COMPLETED →
      confirmDeposit db walletAddress paymentIntentId stripeResult =
        (.error ⟨.badRequest, "Deposit already processed"⟩, db)) := by
  refine ⟨?_, ?_, ?_⟩
  · intro hdep
    simp [confirmDeposit, hdep]
  · intro deposit owner hdep howner hmis
    simp [confirmDeposit, hdep, howner, hmis]
  · intro deposit owner hdep howner hown hst
    simp [confirmDeposit, hdep, howner, hown, hst]

/-- C6: webhook handler behavior.  payment_intent.succeeded: unknown
intent is a silent no-op; an already COMPLETED Deposit is a silent
no-op; otherwise the Deposit is set to COMPLETED and the owner is
credited with the deposit amount by one appended DEPOSIT transaction.
payment_intent.payment_failed: unknown intent is a silent no-op;
otherwise the Deposit is set to FAILED with no balance and no
transaction change. -/
theorem webhook_handlers_behavior (db : DB) (pid : String) :
    (db.deposits.find? (fun d => d.stripe_payment_intent_id == pid) = none →
      handlePaymentSucceeded db pid = (.ok (), db)) ∧
    (∀ dep, db.deposits.find? (fun d => d.stripe_payment_intent_id == pid) = some dep →
      dep.status = .COMPLETED →
      handlePaymentSucceeded db pid = (.ok (), db)) ∧
    (∀ dep owner,
      db.deposits.find? (fun d => d.stripe_payment_intent_id == pid) = some dep →
      dep.status ≠ .COMPLETED →
      db.users.find? (fun u => u.id == dep.user_id) = some owner →
      (handlePaymentSucceeded db pid).1 = .ok () ∧
      (handlePaymentSucceeded db pid).2.deposits.find?
          (fun d => d.stripe_payment_intent_id == pid) =
        some { dep with status := .COMPLETED } ∧
      (handlePaymentSucceeded db pid).2.users.find? (fun u => u.id == dep.user_id) =
        some { owner with balance := owner.balance + dep.amount } ∧
      (handlePaymentSucceeded db pid).2.transactions = db.transactions ++
        [⟨dep.user_id, .DEPOSIT, dep.amount,
          "Deposit via Stripe Webhook - " ++ dep.stripe_payment_intent_id,
          owner.balance + dep.amount, none, none, none⟩]) ∧
    (db.deposits.find? (fun d => d.stripe_payment_intent_id == pid) = none →
      handlePaymentFailed db pid = (.ok (), db)) ∧
    (∀ dep, db.deposits.find? (fun d => d.stripe_payment_intent_id == pid) = some dep →
      (handlePaymentFailed db pid).1 = .ok () ∧
      (handlePaymentFailed db pid).2.users = db.users ∧
      (handlePaymentFailed db pid).2.transactions = db.transactions ∧
      (handlePaymentFailed db pid).2.deposits.find?
          (fun d => d.stripe_payment_intent_id == pid) =
        some { dep with status := .FAILED }) := by
  refine ⟨?_, ?_, ?_, ?_, ?_⟩
  · intro hdep
    simp [handlePaymentSucceeded, hdep]
  · intro dep hdep hst
    simp [handlePaymentSucceeded, hdep, hst]
  · intro dep owner hdep hst howner
    have hrun : handlePaymentSucceeded db pid =
        (.ok (), { db with
            deposits := db.deposits.map (fun d =>
              if d.id == dep.id then { d with status := .COMPLETED } else d)
            users := db.users.map (fun u =>
              if u.id == dep.user_id then
                { owner with balance := owner.balance + dep.amount }
              else u)
            transactions := db.transactions ++
              [⟨dep.user_id, .DEPOSIT, dep.amount,
                (some ("Deposit via Stripe Webhook - " ++
                  dep.stripe_payment_intent_id)).getD "Balance deposit",
                owner.balance + dep.amount, none, none, none⟩] }) := by
      have howner1 : ({ db with deposits := db.deposits.map (fun d =>
          if d.id == dep.id then { d with status := DepositStatus.COMPLETED } else d) } :
            DB).users.find? (fun u => u.id == dep.user_id) = some owner := howner
      simp only [handlePaymentSucceeded, hdep, if_neg hst]
      rw [addBalance_ok _ _ _ _ owner howner1]
    rw [hrun]
    refine ⟨rfl, ?_, ?_, ?_⟩
    · exact deposits_find?_after_status_update db.deposits pid dep .COMPLETED hdep
    · exact users_find?_after_update db.users dep.user_id owner _ howner rfl
    · rfl
  · intro hdep
    simp [handlePaymentFailed, hdep]
  · intro dep hdep
    refine ⟨?_, ?_, ?_, ?_⟩
    · simp [handlePaymentFailed, hdep]
    · simp [handlePaymentFailed, hdep]
    · simp [handlePaymentFailed, hdep]
    · show (handlePaymentFailed db pid).2.deposits.find? _ = _
      simp only [handlePaymentFailed, hdep]
      exact deposits_find?_after_status_update db.deposits pid dep .FAILED hdep

/-- A concrete database for the deposit-workflow witnesses: two users,
one PENDING deposit (pi_1, amount 5, owned by user 1) and one COMPLETED
deposit (pi_2). -/
def dbP : DB :=
  ⟨[⟨1, "0xabc", 0⟩, ⟨2, "0xdef", 0⟩],
   [⟨1, 1, "pi_1", 5, "usd", .PENDING⟩, ⟨2, 1, "pi_2", 7, "usd", .COMPLETED⟩],
   []⟩

/-- Witness: the three confirmDeposit guard failures at concrete
inputs. -/
theorem confirmDeposit_guard_failures_witness :
    confirmDeposit dbP "0xabc" "pi_none" (.ok "succeeded") =
      (.error ⟨.notFound, "Deposit not found"⟩, dbP) ∧
    confirmDeposit dbP "0xdef" "pi_1" (.ok "succeeded") =
      (.error ⟨.badRequest, "Unauthorized access to deposit"⟩, dbP) ∧
    confirmDeposit dbP "0xabc" "pi_2" (.ok "succeeded") =
      (.error ⟨.badRequest, "Deposit already processed"⟩, dbP) := by
  refine ⟨?_, ?_, ?_⟩
  · exact (confirmDeposit_guard_failures dbP "0xabc" "pi_none" (.ok "succeeded")).1
      (by decide)
  · exact (confirmDeposit_guard_failures dbP "0xdef" "pi_1" (.ok "succeeded")).2.1
      ⟨1, 1, "pi_1", 5, "usd", .PENDING⟩ ⟨1, "0xabc", 0⟩ (by decide) (by decide) (by decide)
  · exact (confirmDeposit_guard_failures dbP "0xabc" "pi_2" (.ok "succeeded")).2.2
      ⟨2, 1, "pi_2", 7, "usd", .COMPLETED⟩ ⟨1, "0xabc", 0⟩ (by decide) (by decide)
      (by decide) (by decide)

/-- Witness: the webhook handlers at concrete inputs: unknown intent,
already completed intent, a credited pending intent, and a failed
intent. -/
theorem webhook_handlers_behavior_witness :
    handlePaymentSucceeded dbP "pi_none" = (.ok (), dbP) ∧
    handlePaymentSucceeded dbP "pi_2" = (.ok (), dbP) ∧
    (handlePaymentSucceeded dbP "pi_1").2.users.find? (fun u => u.id == 1) =
      some ⟨1, "0xabc", 5⟩ ∧
    (handlePaymentFailed dbP "pi_1").2.deposits.find?
        (fun d => d.stripe_payment_intent_id == "pi_1") =
      some ⟨1, 1, "pi_1", 5, "usd", .FAILED⟩ := by
  refine ⟨?_, ?_, ?_, ?_⟩
  · exact (webhook_handlers_behavior dbP "pi_none").1 (by decide)
  · exact (webhook_handlers_behavior dbP "pi_2").2.1
      ⟨2, 1, "pi_2", 7, "usd", .COMPLETED⟩ (by decide) rfl
  · have h := ((webhook_handlers_behavior dbP "pi_1").2.2.1
      ⟨1, 1, "pi_1", 5, "usd", .PENDING⟩ ⟨1, "0xabc", 0⟩
      (by decide) (by decide) (by decide)).2.2.1
    norm_num at h
    exact h
  · exact ((webhook_handlers_behavior dbP "pi_1").2.2.2.2
      ⟨1, 1, "pi_1", 5, "usd", .PENDING⟩ (by decide)).2.2.2

/-! ## Claim theorems for the authentication protocol -/

/-- CacheService.get never surfaces a backend error. -/
theorem cacheServiceGet_isOk (b : CacheBackend) (key : String) :
    ∃ v, cacheServiceGet b key = .ok v := by
  unfold cacheServiceGet rawCacheGet
  by_cases hg : b.getFails key = true
  · exact ⟨none, by simp [hg]⟩
  · exact ⟨(b.store.find? (fun kv => kv.1 == key)).map Prod.snd, by simp [hg]⟩

/-- When the backend read throws, CacheService.get returns null. -/
theorem cacheServiceGet_fail (b : CacheBackend) (key : String)
    (h : b.getFails key = true) : cacheServiceGet b key = .ok none := by
  simp [cacheServiceGet, rawCacheGet, h]

/-- A deleted key is no longer found in the store. -/
theorem find?_filter_ne_none (l : List (String × String)) (key : String) :
    (l.filter (fun kv => kv.1 != key)).find? (fun kv => kv.1 == key) = none := by
  rw [List.find?_eq_none]
  intro x hx
  have hmem := List.of_mem_filter hx
  simp at hmem ⊢
  exact hmem

/-- C8: a wallet address or signature that does not match its fixed hex
format makes signIn fail with a validation (BadRequest) error, with no
nonce-store access performed and the store untouched. -/
theorem signin_invalid_format_rejected_before_store (b : CacheBackend)
    (wallet_address signature : String)
    (verify : String → String → String → Except String Bool)
    (jwtSign : String → Except String String)
    (h : isWalletAddressFormat wallet_address = false ∨ isSignatureFormat signature = false) :
    (∃ msg, (signIn b wallet_address signature verify jwtSign).1 = .error (.badRequest msg)) ∧
    (signIn b wallet_address signature verify jwtSign).2.2 = [] ∧
    (signIn b wallet_address signature verify jwtSign).2.1 = b := by
  by_cases hw0 : wallet_address = "" ∨ signature = ""
  · exact ⟨⟨"Wallet address and signature are required", by simp [signIn, hw0]⟩,
      by simp [signIn, hw0], by simp [signIn, hw0]⟩
  · by_cases hwf : isWalletAddressFormat wallet_address = false
    · exact ⟨⟨"Invalid wallet address format", by simp [signIn, hw0, hwf]⟩,
        by simp [signIn, hw0, hwf], by simp [signIn, hw0, hwf]⟩
    · have hsf : isSignatureFormat signature = false := by
        rcases h with h | h
        · exact absurd h hwf
        · exact h
      have hwt : isWalletAddressFormat wallet_address = true := by
        cases hb : isWalletAddressFormat wallet_address
        · exact absurd hb hwf
        · rfl
      exact ⟨⟨"Invalid signature format", by simp [signIn, hw0, hwt, hsf]⟩,
        by simp [signIn, hw0, hwt, hsf], by simp [signIn, hw0, hwt, hsf]⟩

/-- C10: CacheService.get, set and del swallow every backend failure;
consequently the catch branch of signIn that maps a thrown nonce-read
error to the service-unavailable InternalServerErrorException is
unreachable, and a backend failure during the nonce lookup surfaces as
the same authentication error as an absent or expired nonce. -/
theorem cacheService_failures_swallowed :
    (∀ (b : CacheBackend) (key : String), ∃ v, cacheServiceGet b key = .ok v) ∧
    (∀ (b : CacheBackend) (key value : String), ∃ b', cacheServiceSet b key value = .ok b') ∧
    (∀ (b : CacheBackend) (key : String), ∃ b', cacheServiceDel b key = .ok b') ∧
    (∀ (b : CacheBackend) (w s : String)
        (verify : String → String → String → Except String Bool)
        (jwtSign : String → Except String String),
      (signIn b w s verify jwtSign).1 ≠
        .error (.internalServer "Authentication service temporarily unavailable")) ∧
    (∀ (b : CacheBackend) (w s : String)
        (verify : String → String → String → Except String Bool)
        (jwtSign : String → Except String String),
      isWalletAddressFormat w = true →
      isSignatureFormat s = true →
      b.getFails ("nonce:" ++ w) = true →
      (signIn b w s verify jwtSign).1 =
        .error (.unauthorizedE "Nonce not found or expired. Please request a new nonce")) := by
  refine ⟨?_, ?_, ?_, ?_, ?_⟩
  · exact cacheServiceGet_isOk
  · intro b key value
    unfold cacheServiceSet rawCacheSet
    by_cases hs : b.setFails key = true
    · exact ⟨b, by simp [hs]⟩
    · exact ⟨{ b with store := (key, value) :: b.store.filter (fun kv => kv.1 != key) },
        by simp [hs]⟩
  · intro b key
    unfold cacheServiceDel rawCacheDel
    by_cases hd : b.delFails key = true
    · exact ⟨b, by simp [hd]⟩
    · exact ⟨{ b with store := b.store.filter (fun kv => kv.1 != key) }, by simp [hd]⟩
  · intro b w s verify jwtSign
    by_cases h1 : w = "" ∨ s = ""
    · simp [signIn, h1]
    · cases hwb : isWalletAddressFormat w with
      | false => simp [signIn, h1, hwb]
      | true =>
        cases hsb : isSignatureFormat s with
        | false => simp [signIn, h1, hwb, hsb]
        | true =>
          obtain ⟨v, hv⟩ := cacheServiceGet_isOk b ("nonce:" ++ w)
          cases v with
          | none => simp [signIn, h1, hwb, hsb, hv]
          | some nonce =>
            cases hver : verify w nonce s with
            | error e => simp [signIn, h1, hwb, hsb, hv, hver]
            | ok bv =>
              cases bv with
              | false => simp [signIn, h1, hwb, hsb, hv, hver]
              | true =>
                cases hjwt : jwtSign w with
                | error e => simp [signIn, h1, hwb, hsb, hv, hver, hjwt]
                | ok tok => simp [signIn, h1, hwb, hsb, hv, hver, hjwt]
  · intro b w s verify jwtSign hwf hsf hgf
    have hw0 : ¬(w = "" ∨ s = "") := by
      rintro (h | h)
      · rw [h] at hwf
        exact absurd hwf (by decide)
      · rw [h] at hsf
        exact absurd hsf (by decide)
    simp [signIn, hw0, hwf, hsf, cacheServiceGet_fail b _ hgf]

/-- C7: nonce replay protection.  After a successful signIn whose
backend delete does not itself fail, repeating the same signIn call
with the same wallet address and signature fails with the
nonce-not-found authentication error, because the consumed nonce was
deleted from the store. -/
theorem nonce_single_use (b : CacheBackend) (w s : String)
    (verify : String → String → String → Except String Bool)
    (jwtSign : String → Except String String) (r : SignInOk)
    (hfirst : (signIn b w s verify jwtSign).1 = .ok r)
    (hdel : b.delFails ("nonce:" ++ w) = false) :
    (signIn (signIn b w s verify jwtSign).2.1 w s verify jwtSign).1 =
      .error (.unauthorizedE "Nonce not found or expired. Please request a new nonce") := by
  by_cases h1 : w = "" ∨ s = ""
  · simp [signIn, h1] at hfirst
  · cases hwb : isWalletAddressFormat w with
    | false => simp [signIn, h1, hwb] at hfirst
    | true =>
      cases hsb : isSignatureFormat s with
      | false => simp [signIn, h1, hwb, hsb] at hfirst
      | true =>
        cases hg : b.getFails ("nonce:" ++ w) with
        | true => simp [signIn, h1, hwb, hsb, cacheServiceGet_fail b _ hg] at hfirst
        | false =>
          cases hl : b.store.find? (fun kv => kv.1 == "nonce:" ++ w) with
          | none =>
            have hget : cacheServiceGet b ("nonce:" ++ w) = .ok none := by
              simp [cacheServiceGet, rawCacheGet, hg, hl]
            simp [signIn, h1, hwb, hsb, hget] at hfirst
          | some kv =>
            have hget : cacheServiceGet b ("nonce:" ++ w) = .ok (some kv.2) := by
              simp [cacheServiceGet, rawCacheGet, hg, hl]
            cases hver : verify w kv.2 s with
            | error e => simp [signIn, h1, hwb, hsb, hget, hver] at hfirst
            | ok bv =>
              cases bv with
              | false => simp [signIn, h1, hwb, hsb, hget, hver] at hfirst
              | true =>
                have hdelok : cacheServiceDel b ("nonce:" ++ w) =
                    .ok { b with
                      store := b.store.filter (fun kv => kv.1 != "nonce:" ++ w) } := by
                  simp [cacheServiceDel, rawCacheDel, hdel]
                cases hjwt : jwtSign w with
                | error e =>
                  simp [signIn, h1, hwb, hsb, hget, hver, hdelok, hjwt] at hfirst
                | ok tok =>
                  have hb1 : (signIn b w s verify jwtSign).2.1 =
                      { b with
                        store := b.store.filter (fun kv => kv.1 != "nonce:" ++ w) } := by
                    simp [signIn, h1, hwb, hsb, hget, hver, hdelok, hjwt]
                  have hget2 : cacheServiceGet
                      ({ b with
                        store := b.store.filter (fun kv => kv.1 != "nonce:" ++ w) } :
                          CacheBackend) ("nonce:" ++ w) = .ok none := by
                    simp [cacheServiceGet, rawCacheGet, hg, find?_filter_ne_none]
                  rw [hb1]
                  simp [signIn, h1, hwb, hsb, hget2]

/-- A syntactically valid wallet address: 0x plus 40 hex digits. -/
def addr40 : String := "0x" ++ String.mk (List.replicate 40 'a')

/-- A syntactically valid signature: 0x plus 130 hex digits. -/
def sig130 : String := "0x" ++ String.mk (List.replicate 130 'b')

/-- A reliable cache backend holding a nonce for addr40. -/
def bAuth : CacheBackend :=
  ⟨[("nonce:" ++ addr40, "mynonce")], fun _ => false, fun _ => false, fun _ => false⟩

/-- A verifier that accepts. -/
def verifyOk : String → String → String → Except String Bool := fun _ _ _ => .ok true

/-- A JWT signer that returns a fixed token. -/
def jwtOk : String → Except String String := fun _ => .ok "token"

set_option maxRecDepth 4000 in
/-- Witness: a concrete successful sign-in followed by a replay of the
same signature, which is rejected with the authentication error. -/
theorem nonce_single_use_witness :
    (signIn bAuth addr40 sig130 verifyOk jwtOk).1 = .ok ⟨addr40, "token"⟩ ∧
    (signIn (signIn bAuth addr40 sig130 verifyOk jwtOk).2.1 addr40 sig130 verifyOk jwtOk).1 =
      .error (.unauthorizedE "Nonce not found or expired. Please request a new nonce") := by
  have h1 : (signIn bAuth addr40 sig130 verifyOk jwtOk).1 = .ok ⟨addr40, "token"⟩ := rfl
  exact ⟨h1, nonce_single_use bAuth addr40 sig130 verifyOk jwtOk ⟨addr40, "token"⟩ h1 rfl⟩

/-- Witness: sign-in with a malformed wallet address fails with a
validation error and touches the store in no way. -/
theorem signin_invalid_format_witness :
    (∃ msg, (signIn bAuth "nothex" sig130 verifyOk jwtOk).1 = .error (.badRequest msg)) ∧
    (signIn bAuth "nothex" sig130 verifyOk jwtOk).2.2 = [] ∧
    (signIn bAuth "nothex" sig130 verifyOk jwtOk).2.1 = bAuth :=
  signin_invalid_format_rejected_before_store bAuth "nothex" sig130 verifyOk jwtOk
    (Or.inl (by decide))

/-- A cache backend whose primitive operations all throw. -/
def bFailing : CacheBackend :=
  ⟨[("nonce:" ++ addr40, "mynonce")], fun _ => true, fun _ => true, fun _ => true⟩

set_option maxRecDepth 4000 in
/-- Witness: with a throwing backend, a well-formed sign-in reports the
nonce-not-found authentication error, not the service-unavailable
internal error. -/
theorem cacheService_failures_swallowed_witness :
    (signIn bFailing addr40 sig130 verifyOk jwtOk).1 =
      .error (.unauthorizedE "Nonce not found or expired. Please request a new nonce") :=
  cacheService_failures_swallowed.2.2.2.2 bFailing addr40 sig130 verifyOk jwtOk
    (by decide) (by decide) rfl

/-! ## The ledger consistency invariant (claim C1) -/

/-- Appending one transaction row: the per-user history gains the row
exactly when it belongs to that user. -/
theorem userTxns_append_one (db : DB) (us : List User) (t : Txn) (uid : Nat) :
    userTxns { db with users := us, transactions := db.transactions ++ [t] } uid =
      userTxns db uid ++ (if t.user_id == uid then [t] else []) := by
  simp only [userTxns, List.filter_append]
  congr 1
  by_cases h : (t.user_id == uid) = true <;> simp [List.filter_cons, h]

/-- One successful ledger write (balance update of one user row plus one
appended transaction carrying the new balance) preserves row uniqueness
and the ledger consistency invariant. -/
theorem ledger_write_preserves (db : DB) (user : User) (g : User → User) (t : Txn)
    (hwf : UsersWf db) (hinv : LedgerInv db)
    (hmem : user ∈ db.users)
    (hg_user : g user = { user with balance := user.balance + signedAmount t })
    (hg_keys : ∀ x ∈ db.users, (g x).id = x.id ∧ (g x).wallet_address = x.wallet_address)
    (hg_other : ∀ x ∈ db.users, x ≠ user → g x = x)
    (ht_user : t.user_id = user.id)
    (ht_bal : t.balance_after = user.balance + signedAmount t) :
    UsersWf { db with users := db.users.map g, transactions := db.transactions ++ [t] } ∧
    LedgerInv { db with users := db.users.map g, transactions := db.transactions ++ [t] } := by
  obtain ⟨hids, hwallets⟩ := hwf
  have hinj := List.inj_on_of_nodup_map hids
  have hmapid : (db.users.map g).map User.id = db.users.map User.id := by
    rw [List.map_map]
    exact List.map_congr_left (fun x hx => (hg_keys x hx).1)
  have hmapwallet :
      (db.users.map g).map User.wallet_address = db.users.map User.wallet_address := by
    rw [List.map_map]
    exact List.map_congr_left (fun x hx => (hg_keys x hx).2)
  constructor
  · constructor
    · show ((db.users.map g).map User.id).Nodup
      rw [hmapid]
      exact hids
    · show ((db.users.map g).map User.wallet_address).Nodup
      rw [hmapwallet]
      exact hwallets
  · intro u' hu'
    obtain ⟨x, hx, hgx⟩ := List.mem_map.mp hu'
    by_cases hxu : x = user
    · have hu'eq : u' = { user with balance := user.balance + signedAmount t } := by
        rw [← hgx, hxu, hg_user]
      obtain ⟨hH, hB⟩ := hinv user hmem
      rw [hu'eq]
      show historyOkB (userTxns _ user.id) 0 = true ∧
        user.balance + signedAmount t = signedSum (userTxns _ user.id)
      rw [userTxns_append_one]
      have htid : (t.user_id == user.id) = true := by simp [ht_user]
      simp only [htid, if_true]
      constructor
      · rw [historyOkB_append, hH]
        simp [ht_bal, ← hB]
      · rw [signedSum_append, ← hB]
    · have hgxeq : g x = x := hg_other x hx hxu
      have hu'eq : u' = x := by rw [← hgx, hgxeq]
      have hxid : x.id ≠ user.id := fun h => hxu (hinj hx hmem h)
      rw [hu'eq]
      show historyOkB (userTxns _ x.id) 0 = true ∧ x.balance = signedSum (userTxns _ x.id)
      rw [userTxns_append_one]
      have htid : (t.user_id == x.id) = false := by
        simp [ht_user]
        intro h
        exact absurd h.symm hxid
      simp only [htid, Bool.false_eq_true, if_false, List.append_nil]
      exact hinv x hx

/-- Unfolding of a successful subtractBalance call. -/
theorem subtractBalance_ok (db : DB) (userId : Nat) (amount : ℚ) (d : Option String)
    (user : User)
    (hfind : db.users.find? (fun u => u.id == userId) = some user)
    (hge : ¬(user.balance < amount)) :
    subtractBalance db userId amount d =
      .ok (⟨user.balance - amount, db.transactions.length⟩,
        { db with
            users := db.users.map (fun u =>
              if u.id == userId then { user with balance := user.balance - amount } else u)
            transactions := db.transactions ++
              [⟨userId, .WITHDRAWAL, amount, d.getD "Balance withdrawal",
                user.balance - amount, none, none, none⟩] }) := by
  simp only [subtractBalance, hfind, if_neg hge]

/-- Unfolding of a successful swap call. -/
theorem swap_ok (db : DB) (w : String) (amount : ℚ) (price : ℚ) (hash : String)
    (user : User)
    (hvalid : ¬(w = "" ∨ amount ≤ 0))
    (hfind : db.users.find? (fun u => u.wallet_address == w) = some user)
    (hge : ¬(user.balance < amount)) :
    swap db w amount (.ok price) (.ok hash) =
      .ok (⟨hash, amount / price, price, amount, user.balance - amount⟩,
        { db with
            users := db.users.map (fun u =>
              if u.wallet_address == w then { u with balance := u.balance - amount } else u)
            transactions := db.transactions ++
              [⟨user.id, .SWAP, amount, "Swap USD to BTC", user.balance - amount,
                some (amount / price), some price, some hash⟩] }) := by
  simp only [swap, if_neg hvalid, hfind, if_neg hge]

/-- One addBalance call (also a failing one) preserves row uniqueness
and the ledger invariant. -/
theorem applyOp_add_preserves (db : DB) (userId : Nat) (amount : ℚ) (d : Option String)
    (hwf : UsersWf db) (hinv : LedgerInv db) :
    UsersWf (applyOp db (.add userId amount d)) ∧
    LedgerInv (applyOp db (.add userId amount d)) := by
  cases hfind : db.users.find? (fun u => u.id == userId) with
  | none =>
      have hrun : applyOp db (.add userId amount d) = db := by
        simp [applyOp, addBalance, hfind]
      rw [hrun]
      exact ⟨hwf, hinv⟩
  | some user =>
      have hid' : user.id = userId := by simpa using List.find?_some hfind
      have hmem := List.mem_of_find?_eq_some hfind
      have hinj := List.inj_on_of_nodup_map hwf.1
      have hrun : applyOp db (.add userId amount d) =
          { db with
              users := db.users.map (fun u =>
                if u.id == userId then { user with balance := user.balance + amount } else u)
              transactions := db.transactions ++
                [⟨userId, .DEPOSIT, amount, d.getD "Balance deposit",
                  user.balance + amount, none, none, none⟩] } := by
        simp [applyOp, addBalance_ok db userId amount d user hfind]
      rw [hrun]
      apply ledger_write_preserves db user _ _ hwf hinv hmem
      · show (if user.id == userId then _ else user) = _
        simp [hid', signedAmount]
      · intro x hx
        by_cases hxid : (x.id == userId) = true
        · have hxeq : x = user := hinj hx hmem (by simpa [hid'] using hxid)

          subst hxeq
          simp [hxid]
        · simp [hxid]
      · intro x hx hxu
        have hxid : (x.id == userId) = false := by
          by_contra hc
          have : (x.id == userId) = true := by
            cases h : (x.id == userId)
            · exact absurd h hc
            · rfl
          exact hxu (hinj hx hmem (by simpa [hid'] using this))
        simp [hxid]
      · simpa using hid'.symm
      · simp [signedAmount]

/-- One subtractBalance call (also a failing one) preserves row
uniqueness and the ledger invariant. -/
theorem applyOp_sub_preserves (db : DB) (userId : Nat) (amount : ℚ) (d : Option String)
    (hwf : UsersWf db) (hinv : LedgerInv db) :
    UsersWf (applyOp db (.sub userId amount d)) ∧
    LedgerInv (applyOp db (.sub userId amount d)) := by
  cases hfind : db.users.find? (fun u => u.id == userId) with
  | none =>
      have hrun : applyOp db (.sub userId amount d) = db := by
        simp [applyOp, subtractBalance, hfind]
      rw [hrun]
      exact ⟨hwf, hinv⟩
  | some user =>
      by_cases hlt : user.balance < amount
      · have hrun : applyOp db (.sub userId amount d) = db := by
          simp [applyOp, subtractBalance, hfind, hlt]
        rw [hrun]
        exact ⟨hwf, hinv⟩
      · have hid' : user.id = userId := by simpa using List.find?_some hfind
        have hmem := List.mem_of_find?_eq_some hfind
        have hinj := List.inj_on_of_nodup_map hwf.1
        have hrun : applyOp db (.sub userId amount d) =
            { db with
                users := db.users.map (fun u =>
                  if u.id == userId then { user with balance := user.balance - amount } else u)
                transactions := db.transactions ++
                  [⟨userId, .WITHDRAWAL, amount, d.getD "Balance withdrawal",
                    user.balance - amount, none, none, none⟩] } := by
          simp [applyOp, subtractBalance_ok db userId amount d user hfind hlt]
        rw [hrun]
        apply ledger_write_preserves db user _ _ hwf hinv hmem
        · show (if user.id == userId then _ else user) = _
          simp [hid', signedAmount, sub_eq_add_neg]
        · intro x hx
          by_cases hxid : (x.id == userId) = true
          · have hxeq : x = user := hinj hx hmem (by simpa [hid'] using hxid)
            subst hxeq
            simp [hxid]
          · simp [hxid]
        · intro x hx hxu
          have hxid : (x.id == userId) = false := by
            by_contra hc
            have : (x.id == userId) = true := by
              cases h : (x.id == userId)
              · exact absurd h hc
              · rfl
            exact hxu (hinj hx hmem (by simpa [hid'] using this))
          simp [hxid]
        · simpa using hid'.symm
        · simp [signedAmount, sub_eq_add_neg]

/-- One swap call (also a failing one) preserves row uniqueness and the
ledger invariant. -/
theorem applyOp_swp_preserves (db : DB) (w : String) (amount : ℚ)
    (pr : Except Err ℚ) (tr : Except Err String)
    (hwf : UsersWf db) (hinv : LedgerInv db) :
    UsersWf (applyOp db (.swp w amount pr tr)) ∧
    LedgerInv (applyOp db (.swp w amount pr tr)) := by
  by_cases hvalid : w = "" ∨ amount ≤ 0
  · have hrun : applyOp db (.swp w amount pr tr) = db := by
      simp [applyOp, swap, hvalid]
    rw [hrun]
    exact ⟨hwf, hinv⟩
  · cases hfind : db.users.find? (fun u => u.wallet_address == w) with
    | none =>
        have hrun : applyOp db (.swp w amount pr tr) = db := by
          simp [applyOp, swap, hvalid, hfind]
        rw [hrun]
        exact ⟨hwf, hinv⟩
    | some user =>
        by_cases hlt : user.balance < amount
        · have hrun : applyOp db (.swp w amount pr tr) = db := by
            simp [applyOp, swap, hvalid, hfind, hlt]
          rw [hrun]
          exact ⟨hwf, hinv⟩
        · cases pr with
          | error e =>
              have hrun : applyOp db (.swp w amount (.error e) tr) = db := by
                simp [applyOp, swap, hvalid, hfind, hlt]
              rw [hrun]
              exact ⟨hwf, hinv⟩
          | ok price =>
              cases tr with
              | error e =>
                  have hrun : applyOp db (.swp w amount (.ok price) (.error e)) = db := by
                    simp [applyOp, swap, hvalid, hfind, hlt]
                  rw [hrun]
                  exact ⟨hwf, hinv⟩
              | ok hash =>
                  have hw' : user.wallet_address = w := by
                    simpa using List.find?_some hfind
                  have hmem := List.mem_of_find?_eq_some hfind
                  have hinjW := List.inj_on_of_nodup_map hwf.2
                  have hrun : applyOp db (.swp w amount (.ok price) (.ok hash)) =
                      { db with
                          users := db.users.map (fun u =>
                            if u.wallet_address == w then
                              { u with balance := u.balance - amount }
                            else u)
                          transactions := db.transactions ++
                            [⟨user.id, .SWAP, amount, "Swap USD to BTC",
                              user.balance - amount, some (amount / price), some price,
                              some hash⟩] } := by
                    simp [applyOp, swap_ok db w amount price hash user hvalid hfind hlt]
                  rw [hrun]
                  apply ledger_write_preserves db user _ _ hwf hinv hmem
                  · show (if user.wallet_address == w then _ else user) = _
                    simp [hw', signedAmount, sub_eq_add_neg]
                  · intro x hx
                    by_cases hxw : (x.wallet_address == w) = true
                    · simp [hxw]
                    · simp [hxw]
                  · intro x hx hxu
                    have hxw : (x.wallet_address == w) = false := by
                      by_contra hc
                      have hxt : (x.wallet_address == w) = true := by
                        cases h : (x.wallet_address == w)
                        · exact absurd h hc
                        · rfl
                      exact hxu (hinjW hx hmem (by simpa [hw'] using hxt))
                    simp [hxw]
                  · rfl
                  · simp [signedAmount, sub_eq_add_neg]

/-- Every ledger operation preserves row uniqueness and the ledger
invariant. -/
theorem applyOp_preserves (db : DB) (op : Op)
    (hwf : UsersWf db) (hinv : LedgerInv db) :
    UsersWf (applyOp db op) ∧ LedgerInv (applyOp db op) := by
  cases op with
  | add userId amount d => exact applyOp_add_preserves db userId amount d hwf hinv
  | sub userId amount d => exact applyOp_sub_preserves db userId amount d hwf hinv
  | swp w amount pr tr => exact applyOp_swp_preserves db w amount pr tr hwf hinv

/-- Any sequence of ledger operations preserves row uniqueness and the
ledger invariant. -/
theorem runOps_preserves (ops : List Op) (db : DB)
    (h : UsersWf db ∧ LedgerInv db) :
    UsersWf (runOps db ops) ∧ LedgerInv (runOps db ops) := by
  induction ops generalizing db with
  | nil => exact h
  | cons op rest ih => exact ih (applyOp db op) (applyOp_preserves db op h.1 h.2)

/-- C1: starting from a database with no transactions and all balances
zero, after any sequence of ledger operations every user balance equals
the sum of the signed amounts of that user transactions, and every
transaction carries balance_after equal to the running prefix sum of
signed amounts at its position (credits add, debits and swaps
subtract). -/
theorem ledger_balance_consistency (db0 : DB) (ops : List Op)
    (hwf : UsersWf db0)
    (htx : db0.transactions = [])
    (hbal : ∀ u ∈ db0.users, u.balance = 0) :
    ∀ u ∈ (runOps db0 ops).users,
      u.balance = signedSum (userTxns (runOps db0 ops) u.id) ∧
      historyOkB (userTxns (runOps db0 ops) u.id) 0 = true := by
  have hinv0 : LedgerInv db0 := by
    intro u hu
    constructor
    · simp [userTxns, htx, historyOkB]
    · simp [userTxns, htx, signedSum, hbal u hu]
  have h := runOps_preserves ops db0 ⟨hwf, hinv0⟩
  intro u hu
  exact ⟨(h.2 u hu).2, (h.2 u hu).1⟩

/-- Witness: the C1 invariant instantiated with one user and a concrete
sequence of one credit of 5, one debit of 2 and one swap of 1: the final
balance 2 equals the signed sum of the history and the balance_after
snapshots agree with the running sums. -/
theorem ledger_balance_consistency_witness :
    (⟨1, "0xabc", 2⟩ : User).balance = signedSum (userTxns
      (runOps ⟨[⟨1, "0xabc", 0⟩], [], []⟩
        [.add 1 5 none, .sub 1 2 none, .swp "0xabc" 1 (.ok 50000) (.ok "0xh")])
      (⟨1, "0xabc", 2⟩ : User).id) ∧
    historyOkB (userTxns
      (runOps ⟨[⟨1, "0xabc", 0⟩], [], []⟩
        [.add 1 5 none, .sub 1 2 none, .swp "0xabc" 1 (.ok 50000) (.ok "0xh")])
      (⟨1, "0xabc", 2⟩ : User).id) 0 = true := by
  refine ledger_balance_consistency ⟨[⟨1, "0xabc", 0⟩], [], []⟩
    [.add 1 5 none, .sub 1 2 none, .swp "0xabc" 1 (.ok 50000) (.ok "0xh")]
    ⟨by decide, by decide⟩ rfl (by decide) ⟨1, "0xabc", 2⟩ ?_
  norm_num [runOps, applyOp, addBalance, subtractBalance, swap, List.find?,
    show "0xabc" ≠ "" from by decide]

/-! ## Claim C2: racing confirmDeposit against the succeeded webhook -/

/-- C2 counterexample: with the Deposit PENDING, the interleaving in
which both calls read the deposit status before either writes COMPLETED
makes both paths credit: the race produces two transactions and a
doubled balance, refuting exactly-once crediting under concurrent
interleaving. -/
theorem confirm_webhook_race_double_credit :
    ((runRace "0xabc" "pi_1"
        ⟨.start, .start, ⟨[⟨1, "0xabc", 0⟩], [⟨1, 1, "pi_1", 5, "usd", .PENDING⟩], []⟩⟩
        [true, false, false, false, true, true, true]).db.transactions.length = 2) ∧
    ((runRace "0xabc" "pi_1"
        ⟨.start, .start, ⟨[⟨1, "0xabc", 0⟩], [⟨1, 1, "pi_1", 5, "usd", .PENDING⟩], []⟩⟩
        [true, false, false, false, true, true, true]).db.users.find?
          (fun u => u.id == 1) = some ⟨1, "0xabc", 10⟩) := by
  norm_num [runRace, raceStep, confirmStep, webhookStep, addBalance, List.find?,
    show DepositStatus.PENDING ≠ DepositStatus.COMPLETED from by decide]

/-- The webhook handler is a no-op on a COMPLETED deposit. -/
theorem handlePaymentSucceeded_completed (db' : DB) (pid : String) (dep' : Deposit)
    (hdep' : db'.deposits.find? (fun d => d.stripe_payment_intent_id == pid) = some dep')
    (hst' : dep'.status = .COMPLETED) :
    handlePaymentSucceeded db' pid = (.ok (), db') := by
  simp [handlePaymentSucceeded, hdep', hst']

/-- confirmDeposit fails on a COMPLETED deposit of the caller without
touching the database. -/
theorem confirmDeposit_completed (db' : DB) (w pid : String) (dep' : Deposit)
    (owner' : User) (sr : Except Err String)
    (hdep' : db'.deposits.find? (fun d => d.stripe_payment_intent_id == pid) = some dep')
    (howner' : db'.users.find? (fun u => u.id == dep'.user_id) = some owner')
    (hw' : owner'.wallet_address = w)
    (hst' : dep'.status = .COMPLETED) :
    confirmDeposit db' w pid sr =
      (.error ⟨.badRequest, "Deposit already processed"⟩, db') := by
  simp [confirmDeposit, hdep', howner', hw', hst']

/-- C2 amended: when confirmDeposit (with a succeeded Stripe
confirmation) and the succeeded-webhook handler for the same
payment-intent id run sequentially, in either order, the loser observes
COMPLETED and does not credit: exactly one transaction is appended, the
owner balance rises by the deposit amount once, and in the
webhook-first order the later confirm call fails with the
already-processed error. -/
theorem confirm_webhook_sequential_exactly_once (db : DB) (w pid : String)
    (dep : Deposit) (owner : User)
    (hdep : db.deposits.find? (fun d => d.stripe_payment_intent_id == pid) = some dep)
    (hst : dep.status ≠ .COMPLETED)
    (howner : db.users.find? (fun u => u.id == dep.user_id) = some owner)
    (hwallet : owner.wallet_address = w)
    (hbywallet : db.users.find? (fun u => u.wallet_address == w) = some owner) :
    ((handlePaymentSucceeded (confirmDeposit db w pid (.ok "succeeded")).2 pid).2.transactions =
        db.transactions ++
          [⟨dep.user_id, .DEPOSIT, dep.amount,
            "Deposit via Stripe - " ++ dep.stripe_payment_intent_id,
            owner.balance + dep.amount, none, none, none⟩] ∧
      (handlePaymentSucceeded (confirmDeposit db w pid (.ok "succeeded")).2 pid).2.users.find?
          (fun u => u.id == dep.user_id) =
        some { owner with balance := owner.balance + dep.amount }) ∧
    ((confirmDeposit (handlePaymentSucceeded db pid).2 w pid (.ok "succeeded")).1 =
        .error ⟨.badRequest, "Deposit already processed"⟩ ∧
      (confirmDeposit (handlePaymentSucceeded db pid).2 w pid (.ok "succeeded")).2.transactions =
        db.transactions ++
          [⟨dep.user_id, .DEPOSIT, dep.amount,
            "Deposit via Stripe Webhook - " ++ dep.stripe_payment_intent_id,
            owner.balance + dep.amount, none, none, none⟩] ∧
      (confirmDeposit (handlePaymentSucceeded db pid).2 w pid (.ok "succeeded")).2.users.find?
          (fun u => u.id == dep.user_id) =
        some { owner with balance := owner.balance + dep.amount }) := by
  have hid : owner.id = dep.user_id := by simpa using List.find?_some howner
  have hnemis : ¬(owner.wallet_address ≠ w) := by simp [hwallet]
  have hbyid : db.users.find? (fun u => u.id == owner.id) = some owner := by
    simp only [hid]
    exact howner
  constructor
  · -- confirm first, then webhook
    have hconf : confirmDeposit db w pid (.ok "succeeded") =
        (.ok ⟨true, dep.id, owner.balance + dep.amount, db.transactions.length⟩,
          { db with
              deposits := db.deposits.map (fun d =>
                if d.id == dep.id then { d with status := .COMPLETED } else d)
              users := db.users.map (fun u =>
                if u.id == dep.user_id then
                  { owner with balance := owner.balance + dep.amount }
                else u)
              transactions := db.transactions ++
                [⟨dep.user_id, .DEPOSIT, dep.amount,
                  "Deposit via Stripe - " ++ dep.stripe_payment_intent_id,
                  owner.balance + dep.amount, none, none, none⟩] }) := by
      simp [confirmDeposit, hdep, howner, hnemis, hst, hbywallet, addBalance, hbyid, hid]
    rw [hconf]
    have hdep2 := deposits_find?_after_status_update db.deposits pid dep .COMPLETED hdep
    rw [handlePaymentSucceeded_completed _ pid { dep with status := .COMPLETED } hdep2 rfl]
    exact ⟨rfl, users_find?_after_update db.users dep.user_id owner _ howner rfl⟩
  · -- webhook first, then confirm
    have howner1 : ({ db with deposits := db.deposits.map (fun d =>
        if d.id == dep.id then { d with status := DepositStatus.COMPLETED } else d) } :
          DB).users.find? (fun u => u.id == dep.user_id) = some owner := howner
    have hweb1 : handlePaymentSucceeded db pid =
        (.ok (), { db with
            deposits := db.deposits.map (fun d =>
              if d.id == dep.id then { d with status := .COMPLETED } else d)
            users := db.users.map (fun u =>
              if u.id == dep.user_id then
                { owner with balance := owner.balance + dep.amount }
              else u)
            transactions := db.transactions ++
              [⟨dep.user_id, .DEPOSIT, dep.amount,
                "Deposit via Stripe Webhook - " ++ dep.stripe_payment_intent_id,
                owner.balance + dep.amount, none, none, none⟩] }) := by
      simp only [handlePaymentSucceeded, hdep, if_neg hst]
      rw [addBalance_ok _ _ _ _ owner howner1]
      rfl
    rw [hweb1]
    have hdep3 := deposits_find?_after_status_update db.deposits pid dep .COMPLETED hdep
    have howner3 := users_find?_after_update db.users dep.user_id owner
      { owner with balance := owner.balance + dep.amount } howner rfl
    rw [confirmDeposit_completed _ w pid { dep with status := .COMPLETED }
      { owner with balance := owner.balance + dep.amount } (.ok "succeeded")
      hdep3 howner3 hwallet rfl]
    exact ⟨rfl, rfl, howner3⟩

/-- A one-user, one-pending-deposit database for the sequential
exactly-once witness. -/
def dbR : DB := ⟨[⟨1, "0xabc", 0⟩], [⟨1, 1, "pi_1", 5, "usd", .PENDING⟩], []⟩

/-- Witness: sequential confirm-then-webhook and webhook-then-confirm on
a concrete pending deposit each append exactly one transaction. -/
theorem confirm_webhook_sequential_exactly_once_witness :
    (handlePaymentSucceeded (confirmDeposit dbR "0xabc" "pi_1" (.ok "succeeded")).2
        "pi_1").2.transactions.length = 1 ∧
    (confirmDeposit (handlePaymentSucceeded dbR "pi_1").2 "0xabc" "pi_1"
        (.ok "succeeded")).2.transactions.length = 1 := by
  obtain ⟨⟨h1, _⟩, _, h2, _⟩ := confirm_webhook_sequential_exactly_once dbR "0xabc" "pi_1"
    ⟨1, 1, "pi_1", 5, "usd", .PENDING⟩ ⟨1, "0xabc", 0⟩
    (by decide) (by decide) (by decide) rfl (by decide)
  constructor
  · rw [h1]
    rfl
  · rw [h2]
    rfl

end Coretilla
